import Mathlib

/-!
Verification of the Lane-Emden ADM solver (`src/main.py`).

The repository's algorithmic core is the class `LaneEmdenSolver`, which
computes a truncated Adomian-decomposition series for a Lane-Emden type
equation on top of the sympy computer-algebra system.  The solver itself is
embedded below parametrically over a `SymEngine` structure whose fields are
exactly the sympy operations the source code calls (`subs`, `diff`,
`integrate`, `simplify`, the arithmetic constructors, and the five global
symbols imported from `sympy.abc`).  Structural properties of the solver are
proved for every engine; concrete scenarios are settled against an
executable model engine (`modelEngine`) built on a deep expression type.
-/

namespace LaneEmden

/-- Exact rational numbers, the model of sympy's `Integer`/`Rational`
coefficient domain: an integer numerator and a positive, reduced natural
denominator, normalized by construction. -/
structure Frac where
  num : Int
  den : Nat
  deriving DecidableEq, Repr

/-- Normalize `n / d` into a `Frac`: positive denominator, reduced by the
greatest common divisor (the `d = 0` fallback is never reached by the
model's operations). -/
def Frac.normalize (n d : Int) : Frac :=
  if d = 0 then { num := 0, den := 1 }
  else
    let n' := if d < 0 then -n else n
    let g := Nat.gcd n'.natAbs d.natAbs
    { num := n' / (g : Int), den := d.natAbs / g }

/-- The embedding of an integer. -/
def Frac.ofInt (n : Int) : Frac := { num := n, den := 1 }

/-- Exact addition. -/
def Frac.add (a b : Frac) : Frac :=
  Frac.normalize (a.num * (b.den : Int) + b.num * (a.den : Int)) ((a.den : Int) * (b.den : Int))

/-- Exact multiplication. -/
def Frac.mul (a b : Frac) : Frac :=
  Frac.normalize (a.num * b.num) ((a.den : Int) * (b.den : Int))

/-- Exact reciprocal (never applied to `0` by the model). -/
def Frac.inv (a : Frac) : Frac := Frac.normalize (a.den : Int) a.num

/-- Exact natural power. -/
def Frac.npow : Nat → Frac → Frac
  | 0, _ => Frac.ofInt 1
  | n + 1, a => Frac.mul a (Frac.npow n a)

/-- Exact integer power (negative exponents via the reciprocal). -/
def Frac.zpow (a : Frac) : Int → Frac
  | Int.ofNat n => Frac.npow n a
  | Int.negSucc n => (Frac.npow (n + 1) a).inv

/-- Deep symbolic expressions.  Modelled from the spec: the external
Symbolic Engine ("construct constant, construct symbol, add/multiply/power
expressions", plus `log`, which sympy introduces when differentiating a
power with a non-constant exponent).  Constants are exact rationals, matching
sympy's `Integer`/`Rational`; symbols are identified by their name string,
matching `sympy.Symbol`. -/
inductive Expr where
  | const : Frac → Expr
  | sym : String → Expr
  | add : Expr → Expr → Expr
  | mul : Expr → Expr → Expr
  | pow : Expr → Expr → Expr
  | log : Expr → Expr
  deriving DecidableEq, Repr

/-- Smart `+` constructor: sympy's `Add` auto-evaluation (numeric folding and
dropping a zero summand). -/
def addE (a b : Expr) : Expr :=
  match a, b with
  | Expr.const p, Expr.const q => Expr.const (p.add q)
  | Expr.const p, _ => if p = Frac.ofInt 0 then b else Expr.add a b
  | _, Expr.const q => if q = Frac.ofInt 0 then a else Expr.add a b
  | _, _ => Expr.add a b

/-- Smart `*` constructor: sympy's `Mul` auto-evaluation (numeric folding,
`0*x = 0`, `1*x = x`). -/
def mulE (a b : Expr) : Expr :=
  match a, b with
  | Expr.const p, Expr.const q => Expr.const (p.mul q)
  | Expr.const p, _ =>
      if p = Frac.ofInt 0 then Expr.const (Frac.ofInt 0)
      else if p = Frac.ofInt 1 then b else Expr.mul a b
  | _, Expr.const q =>
      if q = Frac.ofInt 0 then Expr.const (Frac.ofInt 0)
      else if q = Frac.ofInt 1 then a else Expr.mul a b
  | _, _ => Expr.mul a b

/-- Smart `**` constructor: sympy's `Pow` auto-evaluation (`x**0 = 1`,
`x**1 = x`, `1**e = 1`, `0**q = 0` for positive `q`, and numeric folding of a
rational base raised to an integer exponent). -/
def powE (b e : Expr) : Expr :=
  match e with
  | Expr.const q =>
    if q = Frac.ofInt 0 then Expr.const (Frac.ofInt 1)
    else if q = Frac.ofInt 1 then b
    else
      match b with
      | Expr.const p =>
        if p = Frac.ofInt 1 then Expr.const (Frac.ofInt 1)
        else if p = Frac.ofInt 0 then
          (if 0 < q.num then Expr.const (Frac.ofInt 0) else Expr.pow b e)
        else if q.den = 1 then Expr.const (p.zpow q.num)
        else Expr.pow b e
      | _ => Expr.pow b e
  | _ =>
    match b with
    | Expr.const p => if p = Frac.ofInt 1 then Expr.const (Frac.ofInt 1) else Expr.pow b e
    | _ => Expr.pow b e

/-- Smart `log` constructor (sympy evaluates `log(1)` to `0`). -/
def logE (a : Expr) : Expr :=
  match a with
  | Expr.const q => if q = Frac.ofInt 1 then Expr.const (Frac.ofInt 0) else Expr.log a
  | _ => Expr.log a

/-- Python unary minus on a sympy expression: `-x` is `Mul(-1, x)`. -/
def negE (a : Expr) : Expr := mulE (Expr.const (Frac.ofInt (-1))) a

/-- Python binary minus on sympy expressions: `a - b` is `Add(a, Mul(-1, b))`. -/
def subE (a b : Expr) : Expr := addE a (negE b)

/-- Python `/` on sympy expressions: `a / b` is `Mul(a, Pow(b, -1))`. -/
def divE (a b : Expr) : Expr := mulE a (powE b (Expr.const (Frac.ofInt (-1))))

/-- Whether the symbol named `x` occurs in an expression. -/
def occurs (x : String) : Expr → Bool
  | Expr.const _ => false
  | Expr.sym y => y = x
  | Expr.add a b => occurs x a || occurs x b
  | Expr.mul a b => occurs x a || occurs x b
  | Expr.pow a b => occurs x a || occurs x b
  | Expr.log a => occurs x a

/-- Substitution of the symbol named `x` by `r`, rebuilding with the smart
constructors exactly as `sympy.subs` re-evaluates the tree. -/
def substE (x : String) (r : Expr) : Expr → Expr
  | Expr.const q => Expr.const q
  | Expr.sym y => if y = x then r else Expr.sym y
  | Expr.add a b => addE (substE x r a) (substE x r b)
  | Expr.mul a b => mulE (substE x r a) (substE x r b)
  | Expr.pow a b => powE (substE x r a) (substE x r b)
  | Expr.log a => logE (substE x r a)

/-- Symbolic derivative with respect to the symbol named `x`, the sympy rules:
linearity, product rule, the general power rule
`d(f^g) = f^g * g' * log f + g * f^(g-1) * f'`, and `d(log f) = f' / f`. -/
def diffE (x : String) : Expr → Expr
  | Expr.const _ => Expr.const (Frac.ofInt 0)
  | Expr.sym y => if y = x then Expr.const (Frac.ofInt 1) else Expr.const (Frac.ofInt 0)
  | Expr.add a b => addE (diffE x a) (diffE x b)
  | Expr.mul a b => addE (mulE (diffE x a) b) (mulE a (diffE x b))
  | Expr.pow a b =>
      addE (mulE (powE a b) (mulE (diffE x b) (logE a)))
        (mulE (mulE b (powE a (subE b (Expr.const (Frac.ofInt 1))))) (diffE x a))
  | Expr.log a => mulE (diffE x a) (powE a (Expr.const (Frac.ofInt (-1))))

/-- Numeric factor and remaining factors of a product chain (used by the
model's `simplify` to collect rational coefficients, as sympy's
simplification produces e.g. `-(1-C)^(3/2)*xi^2/6` rather than a nested
unreduced product). -/
def mulFactors : Expr → Frac × List Expr
  | Expr.const q => (q, [])
  | Expr.mul a b =>
      ((mulFactors a).1.mul (mulFactors b).1, (mulFactors a).2 ++ (mulFactors b).2)
  | e => (Frac.ofInt 1, [e])

/-- Rebuild a product from a collected rational coefficient and factors. -/
def rebuildMul (q : Frac) (fs : List Expr) : Expr := fs.foldl mulE (Expr.const q)

/-- Modelled from the spec: the Symbolic Engine's "algebraically simplify".
The model flattens product chains and collects their rational coefficient in
front, which is the part of sympy's `simplify` exercised by this program's
components (already-closed forms are left intact). -/
def simplifyE : Expr → Expr
  | Expr.const q => Expr.const q
  | Expr.sym y => Expr.sym y
  | Expr.add a b => addE (simplifyE a) (simplifyE b)
  | Expr.mul a b =>
      rebuildMul (mulFactors (Expr.mul (simplifyE a) (simplifyE b))).1
        (mulFactors (Expr.mul (simplifyE a) (simplifyE b))).2
  | Expr.pow a b => powE (simplifyE a) (simplifyE b)
  | Expr.log a => logE (simplifyE a)

/-- Product of two generalized-polynomial decompositions. -/
def polyMul (p q : List (Expr × Frac)) : List (Expr × Frac) :=
  p.flatMap (fun c1 => q.map (fun c2 => (mulE c1.1 c2.1, c1.2.add c2.2)))

/-- Decompose an expression as a finite sum of terms `c * x^e` where each
coefficient `c` is free of the symbol `x` and `e` is a rational exponent;
`none` when the expression is not of that shape (the integrator then fails,
modelling a sympy integral with no closed form). -/
def asPoly (x : String) : Expr → Option (List (Expr × Frac))
  | Expr.const q => some [(Expr.const q, Frac.ofInt 0)]
  | Expr.sym y =>
      if y = x then some [(Expr.const (Frac.ofInt 1), Frac.ofInt 1)]
      else some [(Expr.sym y, Frac.ofInt 0)]
  | Expr.add a b => do pure ((← asPoly x a) ++ (← asPoly x b))
  | Expr.mul a b => do pure (polyMul (← asPoly x a) (← asPoly x b))
  | Expr.pow a b =>
      if occurs x (Expr.pow a b) = false then some [(Expr.pow a b, Frac.ofInt 0)]
      else
        match a, b with
        | Expr.sym y, Expr.const q =>
            if y = x then some [(Expr.const (Frac.ofInt 1), q)] else none
        | _, _ => none
  | Expr.log a =>
      if occurs x (Expr.log a) = false then some [(Expr.log a, Frac.ofInt 0)] else none

/-- The model's error message for a failed symbolic integration. -/
def noClosedForm : String := "Unable to compute the integral"

/-- Modelled from the spec: the Symbolic Engine's
`integrate_definite(expr, symbol, lower, upper)` — exact definite
integration, "failing with a computation error when no closed-form result
exists".  The model integrates generalized polynomials in the integration
variable term by term (`∫ c*x^e dx = c*x^(e+1)/(e+1)`) from `0` to `upper`,
and fails on any other integrand shape (and on exponents `≤ -1`, where the
lower bound `0` is singular). -/
def integE (e : Expr) (x : String) (lo hi : Expr) : Except String Expr :=
  if lo = Expr.const (Frac.ofInt 0) then
    match asPoly x e with
    | none => Except.error noClosedForm
    | some ts =>
      match ts.mapM (fun ce =>
          let e1 := ce.2.add (Frac.ofInt 1)
          if 0 < e1.num then
            some (mulE ce.1 (mulE (Expr.const e1.inv) (powE hi (Expr.const e1))))
          else none) with
      | none => Except.error noClosedForm
      | some vs => Except.ok (vs.foldl addE (Expr.const (Frac.ofInt 0)))
  else Except.error noClosedForm

/-- The value passed to the constructor's `num_terms` parameter.  Python is
dynamically typed, so besides an `int` the caller may pass a float or any
other object; `isinstance(num_terms, int)` distinguishes the cases. -/
inductive PyNum where
  | int : Int → PyNum
  | float : ℚ → PyNum
  | other : PyNum
  deriving DecidableEq, Repr

/-- The value passed to the constructor's `initial_condition` parameter, as
seen by sympy's `Integer(...)` coercion: a Python `int`; a numeric sympy
expression, recorded with whether it is an exact integer together with its
truncation toward zero (e.g. `1 + pi/2` is `number false 2`); or a
non-numeric symbolic expression. -/
inductive InitArg where
  | pyInt : Int → InitArg
  | number : Bool → Int → InitArg
  | symbolic : InitArg
  deriving DecidableEq, Repr

/-- The Symbolic Engine interface, with exactly the sympy operations
`src/main.py` calls: expression constructors, the five global symbols
imported from `sympy.abc` (line 15), `subs`, `diff` (n-th derivative),
definite `integrate` (which may fail with an engine error `Er`), `simplify`,
and the `Integer` coercion applied to the initial condition. -/
structure SymEngine (Ex Er : Type) where
  intC : Int → Ex
  add : Ex → Ex → Ex
  mul : Ex → Ex → Ex
  pow : Ex → Ex → Ex
  div : Ex → Ex → Ex
  neg : Ex → Ex
  u : Ex
  lamda : Ex
  s : Ex
  t : Ex
  xi : Ex
  subs : Ex → Ex → Ex → Ex
  diffN : Ex → Ex → Nat → Ex
  integ : Ex → Ex → Ex → Ex → Except Er Ex
  simplify : Ex → Ex
  integerC : InitArg → Except Er Ex

/-- The executable model instance of the Symbolic Engine over the deep
expression type.  The five `sympy.abc` symbols are the fixed global names
`u`, `lamda`, `s`, `t`, `xi`.  `integerC` is sympy's documented `Integer`
coercion: exact on integers, truncating toward zero on numeric non-integers
(sympy: "if ... a float or a rational is passed to Integer, the fractional
part will be discarded"), and raising a `TypeError` on non-numeric
arguments. -/
def modelEngine : SymEngine Expr String where
  intC := fun n => Expr.const (Frac.ofInt n)
  add := addE
  mul := mulE
  pow := powE
  div := divE
  neg := negE
  u := Expr.sym "u"
  lamda := Expr.sym "lamda"
  s := Expr.sym "s"
  t := Expr.sym "t"
  xi := Expr.sym "xi"
  subs := fun e old new =>
    match old with
    | Expr.sym x => substE x new e
    | _ => e
  diffN := fun e v k =>
    match v with
    | Expr.sym x => (diffE x)^[k] e
    | _ => e
  integ := fun e v lo hi =>
    match v with
    | Expr.sym x => integE e x lo hi
    | _ => Except.error noClosedForm
  simplify := simplifyE
  integerC := fun a =>
    match a with
    | InitArg.pyInt n => Except.ok (Expr.const (Frac.ofInt n))
    | InitArg.number _ tr => Except.ok (Expr.const (Frac.ofInt tr))
    | InitArg.symbolic => Except.error "TypeError: Integer can only work with integer expressions"

-- Structural decidable equality for engine results (sympy expressions and
-- engine errors are compared structurally throughout).
deriving instance DecidableEq for Except

/-- The errors a `LaneEmdenSolver` call can raise: the Python `ValueError`
raised by the constructor's own validation (the spec's `ConfigurationError`),
or an exception from the Symbolic Engine (the spec's
`SymbolicComputationError`). -/
inductive SolverError (Er : Type) where
  | valueError : String → SolverError Er
  | engine : Er → SolverError Er
  deriving DecidableEq, Repr

/-- The state a successfully constructed `LaneEmdenSolver` holds
(`src/main.py` lines 48-53): the validated `num_terms`, the nonlinearity,
the `Integer`-coerced initial condition, the designated solution symbol
`self.u`, and the component list `self.us` (initially empty; `self.u_symbols`
is used only for printing and is omitted). -/
structure Solver (Ex : Type) where
  num_terms : Int
  non_linear_func : Ex
  initial_condition : Ex
  u : Ex
  us : List Ex
  deriving DecidableEq, Repr

namespace LaneEmdenSolver

/-- `LaneEmdenSolver.__init__` (`src/main.py` lines 35-53): raise
`ValueError("Number of terms must be a positive integer.")` unless
`num_terms` is a Python `int` that is strictly positive (the `isinstance`
test fails first for any non-`int`, short-circuiting the comparison), then
store the configuration, coercing `initial_condition` through sympy's
`Integer(...)`. -/
def init {Ex Er : Type} (E : SymEngine Ex Er) (num_terms : PyNum) (non_linear_func : Ex)
    (initial_condition : InitArg) : Except (SolverError Er) (Solver Ex) :=
  match num_terms with
  | PyNum.int n =>
      if n ≤ 0 then
        Except.error (SolverError.valueError "Number of terms must be a positive integer.")
      else
        match E.integerC initial_condition with
        | Except.error e => Except.error (SolverError.engine e)
        | Except.ok ic =>
            Except.ok { num_terms := n, non_linear_func := non_linear_func,
                        initial_condition := ic, u := E.u, us := [] }
  | _ => Except.error (SolverError.valueError "Number of terms must be a positive integer.")

/-- `LaneEmdenSolver._inverse_operator` (`src/main.py` lines 55-69):
`inner_integral = integrate(t**2 * func.subs(variable, t), (t, 0, s))`
followed by `integrate(s**(-2) * inner_integral, (s, 0, variable))`. -/
def inverse_operator {Ex Er : Type} (E : SymEngine Ex Er) (func var : Ex) :
    Except Er Ex :=
  match E.integ (E.mul (E.pow E.t (E.intC 2)) (E.subs func var E.t))
      E.t (E.intC 0) E.s with
  | Except.error e => Except.error e
  | Except.ok inner_integral =>
      E.integ (E.mul (E.pow E.s (E.intC (-2))) inner_integral) E.s (E.intC 0) var

/-- `LaneEmdenSolver._calculate_adomian_polynomial` (`src/main.py` lines
71-88), with the mutable `self.us` passed explicitly:
`parametrized_sum = sum(self.us[i] * lamda**i for i in range(len(self.us)))`
(a Python `sum`, i.e. a left fold starting from `0`), substitute it for
`self.u` in `self.non_linear_func`, differentiate `k` times with respect to
`lamda`, substitute `lamda = 0`, and divide by `factorial(k)` (sympy's
`factorial` on a concrete Python `int` evaluates to the exact integer
`k!`). -/
def calculate_adomian_polynomial {Ex Er : Type} (E : SymEngine Ex Er) (u_ : Ex)
    (non_linear_func : Ex) (us : List Ex) (k : Nat) : Ex :=
  let parametrized_sum :=
    (List.range us.length).foldl
      (fun acc i => E.add acc (E.mul (us.getD i (E.intC 0)) (E.pow E.lamda (E.intC i))))
      (E.intC 0)
  let non_linear_function := E.subs non_linear_func u_ parametrized_sum
  let derivative := E.diffN non_linear_function E.lamda k
  E.div (E.subs derivative E.lamda (E.intC 0)) (E.intC (Nat.factorial k))

/-- The iteration of `LaneEmdenSolver.solve` (`src/main.py` lines 116-125):
`for k in range(self.num_terms - 1)`, compute the Adomian polynomial `A_k`,
apply `-self._inverse_operator(adomian_poly, xi)`, `simplify` it and append
it to `self.us`.  The remaining step count, the loop index `k` and the
mutable `self.us` are threaded explicitly; an engine exception aborts the
loop and propagates. -/
def solveLoop {Ex Er : Type} (E : SymEngine Ex Er) (u_ non_linear_func : Ex) :
    Nat → Nat → List Ex → Except Er (List Ex)
  | 0, _, us => Except.ok us
  | n + 1, k, us =>
      let adomian_poly := calculate_adomian_polynomial E u_ non_linear_func us k
      match inverse_operator E adomian_poly E.xi with
      | Except.error e => Except.error e
      | Except.ok inv =>
          let next_u_val := E.simplify (E.neg inv)
          solveLoop E u_ non_linear_func n (k + 1) (us ++ [next_u_val])

/-- `LaneEmdenSolver.solve` (`src/main.py` lines 90-131): reset `self.us`,
append `u_0 = self.initial_condition`, run the recurrence loop
`num_terms - 1` times, and return `(sum(self.us), self.us)` — the
approximate solution is the plain Python `sum` of the components (a left
fold starting from `0`), with no further simplification.  All `print`
calls are presentation-only side effects and are omitted. -/
def solve {Ex Er : Type} (E : SymEngine Ex Er) (slv : Solver Ex) :
    Except Er (Ex × List Ex) :=
  match solveLoop E slv.u slv.non_linear_func (slv.num_terms - 1).toNat 0
      [slv.initial_condition] with
  | Except.error e => Except.error e
  | Except.ok us => Except.ok (us.foldl E.add (E.intC 0), us)

end LaneEmdenSolver

/-- The concrete nonlinearity of the spec's first concrete scenario,
`(u² − C)^1.5` with `C` a free symbol, built through the Python operators
exactly as `(u**2 - C) ** Rational(3, 2)` builds through sympy's
auto-evaluating constructors. -/
def concreteNonLinearFunc : Expr :=
  powE (subE (powE (Expr.sym "u") (Expr.const (Frac.ofInt 2))) (Expr.sym "C"))
    (Expr.const { num := 3, den := 2 })

/-- `1 − C` as sympy represents it: `Add(1, Mul(-1, C))`. -/
def oneMinusC : Expr :=
  Expr.add (Expr.const (Frac.ofInt 1)) (Expr.mul (Expr.const (Frac.ofInt (-1))) (Expr.sym "C"))

/-- The closed form `−(1−C)^1.5 · ξ²/6` claimed for `component[1]` of the
concrete scenario, in the shape the model's simplifier produces:
`((-1/6) · (1−C)^(3/2)) · ξ²`. -/
def componentOneC6 : Expr :=
  Expr.mul
    (Expr.mul (Expr.const { num := -1, den := 6 })
      (Expr.pow oneMinusC (Expr.const { num := 3, den := 2 })))
    (Expr.pow (Expr.sym "xi") (Expr.const (Frac.ofInt 2)))

/-- A caller nonlinearity `f(u) = lamda · u` whose free symbol `lamda`
coincides with the parametrization symbol the solver imports from
`sympy.abc` — legal per the data model (`u` and caller-fixed free symbols),
and the capture scenario the spec's freshness requirement is meant to
exclude. -/
def captureNonLinearFunc : Expr := Expr.mul (Expr.sym "lamda") (Expr.sym "u")

/-- An engine whose definite integration always fails: the model engine with
`integrate` returning the bare engine error `noClosedForm` (a sympy
nonelementary-integral failure, which carries no ADM step index and no
operation name). -/
def failEngine : SymEngine Expr String :=
  { modelEngine with integ := fun _ _ _ _ => Except.error noClosedForm }

/-- An engine whose definite integration fails exactly on integrands of
degree ≥ 4 in the integration variable (and otherwise behaves like the
model): with `f(u) = u²`, `u₀ = 1` its first recurrence step succeeds and its
second fails, so it exhibits an engine failure at step index 1. -/
def capEngine : SymEngine Expr String :=
  { modelEngine with
    integ := fun e v lo hi =>
      match v with
      | Expr.sym x =>
        match asPoly x e with
        | none => Except.error noClosedForm
        | some ts =>
            if ts.any (fun p => 4 * (p.2.den : Int) ≤ p.2.num) then Except.error noClosedForm
            else integE e x lo hi
      | _ => Except.error noClosedForm }

/-- The spec's Adomian polynomial, written from the spec's words: "substitute
the parametrized partial sum S_k(λ) = Σ_{i=0}^{k} component[i]·λ^i for the
symbol u in non_linear_func, differentiate the result k times with respect
to λ, substitute λ = 0, and divide by the exact integer factorial k!". -/
def specAdomianPolynomial {Ex Er : Type} (E : SymEngine Ex Er) (non_linear_func : Ex)
    (component : List Ex) (k : Nat) : Ex :=
  let S_k :=
    (List.range (k + 1)).foldl
      (fun acc i => E.add acc (E.mul (component.getD i (E.intC 0)) (E.pow E.lamda (E.intC i))))
      (E.intC 0)
  E.div (E.subs (E.diffN (E.subs non_linear_func E.u S_k) E.lamda k) E.lamda (E.intC 0))
    (E.intC (Nat.factorial k))

/-- The spec's inverse operator, written from the spec's words:
"L⁻¹(f)(ξ) = ∫₀^ξ [ s⁻² · ∫₀^s t²·f(t) dt ] ds, evaluated inner integral
first (substituting the inner dummy t into f, integrating t²·f(t) from 0 to
s, then integrating s⁻² times that result from 0 to ξ)". -/
def specInverseOperator {Ex Er : Type} (E : SymEngine Ex Er) (f var : Ex) :
    Except Er Ex :=
  match E.integ (E.mul (E.pow E.t (E.intC 2)) (E.subs f var E.t)) E.t (E.intC 0) E.s with
  | Except.error e => Except.error e
  | Except.ok inner => E.integ (E.mul (E.pow E.s (E.intC (-2))) inner) E.s (E.intC 0) var

open LaneEmdenSolver

/-- A successful run of the recurrence loop appends exactly one component per
remaining step. -/
theorem solveLoop_length {Ex Er : Type} (E : SymEngine Ex Er) (u_ f : Ex) :
    ∀ (n k : Nat) (us r : List Ex), solveLoop E u_ f n k us = Except.ok r →
      r.length = us.length + n := by
  intro n
  induction n with
  | zero =>
    intro k us r h
    simp only [solveLoop] at h
    cases h
    simp
  | succ n ih =>
    intro k us r h
    simp only [solveLoop] at h
    cases hinv : inverse_operator E (calculate_adomian_polynomial E u_ f us k) E.xi with
    | error e => rw [hinv] at h; cases h
    | ok inv =>
      rw [hinv] at h
      have := ih (k + 1) (us ++ [E.simplify (E.neg inv)]) r h
      simp at this
      omega

/-- A successful run of the recurrence loop only ever appends to the
component list it was started with. -/
theorem solveLoop_prefix {Ex Er : Type} (E : SymEngine Ex Er) (u_ f : Ex) :
    ∀ (n k : Nat) (us r : List Ex), solveLoop E u_ f n k us = Except.ok r →
      ∃ tail, r = us ++ tail := by
  intro n
  induction n with
  | zero =>
    intro k us r h
    simp only [solveLoop] at h
    cases h
    exact ⟨[], by simp⟩
  | succ n ih =>
    intro k us r h
    simp only [solveLoop] at h
    cases hinv : inverse_operator E (calculate_adomian_polynomial E u_ f us k) E.xi with
    | error e => rw [hinv] at h; cases h
    | ok inv =>
      rw [hinv] at h
      obtain ⟨tail, ht⟩ := ih (k + 1) (us ++ [E.simplify (E.neg inv)]) r h
      exact ⟨[E.simplify (E.neg inv)] ++ tail, by simp [ht]⟩

/-- Unfolding the recurrence loop from the right: `n + 1` steps are `n` steps
followed by one recurrence step at loop index `k + n`. -/
theorem solveLoop_succ_right {Ex Er : Type} (E : SymEngine Ex Er) (u_ f : Ex) :
    ∀ (n k : Nat) (us : List Ex),
      solveLoop E u_ f (n + 1) k us =
        match solveLoop E u_ f n k us with
        | Except.error e => Except.error e
        | Except.ok v =>
          match inverse_operator E (calculate_adomian_polynomial E u_ f v (k + n)) E.xi with
          | Except.error e => Except.error e
          | Except.ok inv => Except.ok (v ++ [E.simplify (E.neg inv)]) := by
  intro n
  induction n with
  | zero =>
    intro k us
    simp only [solveLoop, Nat.add_zero]
  | succ n ih =>
    intro k us
    have step : solveLoop E u_ f (n + 1 + 1) k us =
        match inverse_operator E (calculate_adomian_polynomial E u_ f us k) E.xi with
        | Except.error e => Except.error e
        | Except.ok inv => solveLoop E u_ f (n + 1) (k + 1) (us ++ [E.simplify (E.neg inv)]) := rfl
    have step2 : solveLoop E u_ f (n + 1) k us =
        match inverse_operator E (calculate_adomian_polynomial E u_ f us k) E.xi with
        | Except.error e => Except.error e
        | Except.ok inv => solveLoop E u_ f n (k + 1) (us ++ [E.simplify (E.neg inv)]) := rfl
    rw [step, step2]
    cases hinv : inverse_operator E (calculate_adomian_polynomial E u_ f us k) E.xi with
    | error e => rfl
    | ok inv =>
      simp only
      rw [ih (k + 1) (us ++ [E.simplify (E.neg inv)])]
      have harith : k + 1 + n = k + (n + 1) := by omega
      rw [harith]

/-- Any error surfaced by a run of the recurrence loop is, verbatim, an error
value returned by the engine's definite integration. -/
theorem solveLoop_error {Ex Er : Type} (E : SymEngine Ex Er) (u_ f : Ex) :
    ∀ (n k : Nat) (us : List Ex) (e : Er), solveLoop E u_ f n k us = Except.error e →
      ∃ g v lo hi, E.integ g v lo hi = Except.error e := by
  intro n
  induction n with
  | zero =>
    intro k us e h
    simp only [solveLoop] at h
    cases h
  | succ n ih =>
    intro k us e h
    simp only [solveLoop] at h
    cases hinv : inverse_operator E (calculate_adomian_polynomial E u_ f us k) E.xi with
    | error e' =>
      rw [hinv] at h
      cases h
      simp only [inverse_operator] at hinv
      cases hi1 : E.integ
          (E.mul (E.pow E.t (E.intC 2))
            (E.subs (calculate_adomian_polynomial E u_ f us k) E.xi E.t))
          E.t (E.intC 0) E.s with
      | error e1 =>
        rw [hi1] at hinv
        cases hinv
        exact ⟨_, _, _, _, hi1⟩
      | ok inner =>
        rw [hi1] at hinv
        exact ⟨_, _, _, _, hinv⟩
    | ok inv =>
      rw [hinv] at h
      exact ih (k + 1) (us ++ [E.simplify (E.neg inv)]) e h

/-- C1: at every recurrence step `k` the component list holds exactly the
`k + 1` components of index `≤ k`, so the Adomian polynomial the code
computes — over `range(len(self.us))` — is exactly the spec's formula:
substitute `S_k(λ) = Σ_{i=0}^{k} component[i]·λ^i` for `u` in
`non_linear_func`, differentiate `k` times with respect to `λ`, substitute
`λ = 0`, and divide by the exact integer factorial `k!`.  This holds for
every Symbolic Engine. -/
theorem adomian_polynomial_formula {Ex Er : Type} (E : SymEngine Ex Er) (f u0 : Ex)
    (k : Nat) (us_k : List Ex)
    (h : solveLoop E E.u f k 0 [u0] = Except.ok us_k) :
    us_k.length = k + 1 ∧
      calculate_adomian_polynomial E E.u f us_k k = specAdomianPolynomial E f us_k k := by
  have hl := solveLoop_length E E.u f k 0 [u0] us_k h
  simp only [List.length_singleton] at hl
  have hk : us_k.length = k + 1 := by omega
  refine ⟨hk, ?_⟩
  simp only [calculate_adomian_polynomial, specAdomianPolynomial, hk]

/-- C1 witness: with `f(u) = u` and `u₀ = 1`, after one recurrence step the
component list is `[1, -ξ²/6]` and the code's `A₁` coincides with the spec's
formula. -/
theorem adomian_polynomial_formula_witness :
    ([Expr.const (Frac.ofInt 1),
        Expr.mul (Expr.const { num := -1, den := 6 }) (Expr.pow (Expr.sym "xi") (Expr.const (Frac.ofInt 2)))].length = 1 + 1) ∧
      calculate_adomian_polynomial modelEngine modelEngine.u (Expr.sym "u")
          [Expr.const (Frac.ofInt 1), Expr.mul (Expr.const { num := -1, den := 6 }) (Expr.pow (Expr.sym "xi") (Expr.const (Frac.ofInt 2)))] 1 =
        specAdomianPolynomial modelEngine (Expr.sym "u")
          [Expr.const (Frac.ofInt 1), Expr.mul (Expr.const { num := -1, den := 6 }) (Expr.pow (Expr.sym "xi") (Expr.const (Frac.ofInt 2)))] 1 :=
  adomian_polynomial_formula modelEngine (Expr.sym "u") (Expr.const (Frac.ofInt 1)) 1
    [Expr.const (Frac.ofInt 1), Expr.mul (Expr.const { num := -1, den := 6 }) (Expr.pow (Expr.sym "xi") (Expr.const (Frac.ofInt 2)))]
    (by decide)

/-- C2: the code's `_inverse_operator` is, for every input, exactly the
spec's nested weighted definite integral — inner integral `∫₀ˢ t²·f(t) dt`
first (with the inner dummy `t` substituted into `f`), then
`∫₀^ξ s⁻²·(inner) ds` — and whenever step `k` completes, the next component
appended is `simplify(−L⁻¹(A_k))`, so each component is simplified before
later iterations consume it.  This holds for every Symbolic Engine. -/
theorem inverse_operator_and_next_component {Ex Er : Type} (E : SymEngine Ex Er)
    (f u0 r : Ex) (k : Nat) (us_k : List Ex)
    (h1 : solveLoop E E.u f k 0 [u0] = Except.ok us_k)
    (h2 : inverse_operator E (calculate_adomian_polynomial E E.u f us_k k) E.xi
        = Except.ok r) :
    (∀ g v, inverse_operator E g v = specInverseOperator E g v) ∧
      solveLoop E E.u f (k + 1) 0 [u0] = Except.ok (us_k ++ [E.simplify (E.neg r)]) := by
  refine ⟨fun g v => rfl, ?_⟩
  rw [solveLoop_succ_right E E.u f k 0 [u0], h1]
  simp only [Nat.zero_add]
  rw [h2]

/-- C2 witness: with `f(u) = u` and `u₀ = 1`, step `0` applies `L⁻¹` to
`A₀ = 1`, obtaining `ξ²/6` (unreduced), and appends its simplified
negation. -/
theorem inverse_operator_and_next_component_witness :
    (∀ g v, inverse_operator modelEngine g v = specInverseOperator modelEngine g v) ∧
      solveLoop modelEngine modelEngine.u (Expr.sym "u") (0 + 1) 0 [Expr.const (Frac.ofInt 1)] =
        Except.ok ([Expr.const (Frac.ofInt 1)] ++
          [modelEngine.simplify (modelEngine.neg
            (Expr.mul (Expr.const { num := 1, den := 3 })
              (Expr.mul (Expr.const { num := 1, den := 2 }) (Expr.pow (Expr.sym "xi") (Expr.const (Frac.ofInt 2))))))]) :=
  inverse_operator_and_next_component modelEngine (Expr.sym "u") (Expr.const (Frac.ofInt 1))
    (Expr.mul (Expr.const { num := 1, den := 3 })
      (Expr.mul (Expr.const { num := 1, den := 2 }) (Expr.pow (Expr.sym "xi") (Expr.const (Frac.ofInt 2)))))
    0 [Expr.const (Frac.ofInt 1)] rfl (by decide)

/-- C5: construction fails with the Python `ValueError` ("ConfigurationError")
for `num_terms = 0`, `num_terms = -3`, any float, and any other non-`int`
argument — before any Symbolic Engine computation (the error is raised for
every `initial_condition` argument, including one whose `Integer` coercion
would itself fail), and no solver state is produced — while for every
positive integer `num_terms` (and a coercible initial condition) it succeeds.
This holds for every Symbolic Engine. -/
theorem num_terms_validation {Ex Er : Type} (E : SymEngine Ex Er) (f : Ex) (arg : InitArg) :
    init E (PyNum.int 0) f arg
        = Except.error (SolverError.valueError "Number of terms must be a positive integer.") ∧
      init E (PyNum.int (-3)) f arg
        = Except.error (SolverError.valueError "Number of terms must be a positive integer.") ∧
      (∀ q : ℚ, init E (PyNum.float q) f arg
        = Except.error (SolverError.valueError "Number of terms must be a positive integer.")) ∧
      init E PyNum.other f arg
        = Except.error (SolverError.valueError "Number of terms must be a positive integer.") ∧
      ∀ n : Int, 0 < n → ∀ ic : Ex, E.integerC arg = Except.ok ic →
        init E (PyNum.int n) f arg
          = Except.ok { num_terms := n, non_linear_func := f, initial_condition := ic,
                        u := E.u, us := [] } := by
  refine ⟨by simp [init], by simp [init], fun q => rfl, rfl, ?_⟩
  intro n hn ic hic
  simp only [init]
  rw [if_neg (by omega), hic]

/-- C5 witness: with the model engine, `num_terms = 0` is rejected even for a
symbolic initial condition (whose coercion would fail later), and
`num_terms = 6` with `initial_condition = 1` is accepted. -/
theorem num_terms_validation_witness :
    init modelEngine (PyNum.int 0) (Expr.sym "u") InitArg.symbolic
        = Except.error (SolverError.valueError "Number of terms must be a positive integer.") ∧
      init modelEngine (PyNum.int 6) (Expr.sym "u") (InitArg.pyInt 1)
        = Except.ok { num_terms := 6, non_linear_func := Expr.sym "u",
                      initial_condition := Expr.const (Frac.ofInt 1), u := Expr.sym "u", us := [] } :=
  ⟨(num_terms_validation modelEngine (Expr.sym "u") InitArg.symbolic).1,
    (num_terms_validation modelEngine (Expr.sym "u") (InitArg.pyInt 1)).2.2.2.2 6
      (by norm_num) (Expr.const (Frac.ofInt 1)) rfl⟩

/-- C8 (amended): every error surfaced by `solve()` is, verbatim, an error
value returned by the engine's definite integration — the solver neither
catches nor retries it, and attaches nothing to it (in particular no step
index and no operation name).  This holds for every Symbolic Engine. -/
theorem error_propagation_unmodified {Ex Er : Type} (E : SymEngine Ex Er)
    (slv : Solver Ex) (e : Er) (h : solve E slv = Except.error e) :
    ∃ g v lo hi, E.integ g v lo hi = Except.error e := by
  simp only [solve] at h
  cases hl : solveLoop E slv.u slv.non_linear_func (slv.num_terms - 1).toNat 0
      [slv.initial_condition] with
  | error e' =>
    rw [hl] at h
    cases h
    exact solveLoop_error E slv.u slv.non_linear_func _ 0 _ _ hl
  | ok us => rw [hl] at h; cases h

/-- C8 amended-claim witness: a failing engine's error surfaces from
`solve()` as one of the engine's own integration errors. -/
theorem error_propagation_unmodified_witness :
    ∃ g v lo hi, failEngine.integ g v lo hi = Except.error noClosedForm :=
  error_propagation_unmodified failEngine
    { num_terms := 2, non_linear_func := Expr.sym "u", initial_condition := Expr.const (Frac.ofInt 1),
      u := Expr.sym "u", us := [] } noClosedForm (by decide)

/-- C8 counterexample: the claim that the surfaced error carries the failing
step index `k` and the operation name is false.  A run failing at step
`k = 0` (`failEngine`) and a run failing at step `k = 1` (`capEngine`, whose
first step succeeds, third conjunct) surface the identical bare engine error
`noClosedForm`, which contains neither a step index nor an operation name. -/
theorem error_without_step_index_counterexample :
    solve failEngine
        { num_terms := 2, non_linear_func := Expr.sym "u", initial_condition := Expr.const (Frac.ofInt 1),
          u := Expr.sym "u", us := [] } = Except.error noClosedForm ∧
      solve capEngine
          { num_terms := 3, non_linear_func := Expr.pow (Expr.sym "u") (Expr.const (Frac.ofInt 2)),
            initial_condition := Expr.const (Frac.ofInt 1), u := Expr.sym "u", us := [] }
        = Except.error noClosedForm ∧
      solveLoop capEngine (Expr.sym "u") (Expr.pow (Expr.sym "u") (Expr.const (Frac.ofInt 2))) 1 0
          [Expr.const (Frac.ofInt 1)]
        = Except.ok [Expr.const (Frac.ofInt 1),
            Expr.mul (Expr.const { num := -1, den := 6 }) (Expr.pow (Expr.sym "xi") (Expr.const (Frac.ofInt 2)))] := by
  exact ⟨by decide, by decide, by decide⟩

/-- C9: the returned `approx_solution` is the plain Python `sum` of the
component sequence — a left fold of the engine's addition starting from `0` —
with no `simplify` applied to it.  This holds for every Symbolic Engine, in
particular for engines whose `simplify` would change the sum. -/
theorem approx_solution_unsimplified_sum {Ex Er : Type} (E : SymEngine Ex Er)
    (slv : Solver Ex) (a : Ex) (comps : List Ex)
    (h : solve E slv = Except.ok (a, comps)) :
    a = comps.foldl E.add (E.intC 0) := by
  simp only [solve] at h
  cases hl : solveLoop E slv.u slv.non_linear_func (slv.num_terms - 1).toNat 0
      [slv.initial_condition] with
  | error e => rw [hl] at h; cases h
  | ok us =>
    rw [hl] at h
    cases h
    rfl

/-- C3: whenever construction succeeds from an integer initial condition and
`solve()` returns, the component list has exactly `num_terms` entries and its
first entry is the engine expression of the supplied initial condition,
untouched by `simplify` (the statement holds for every Symbolic Engine,
whatever its `simplify` does).  The hypothesis `hInt` is sympy's documented
`Integer` behaviour on an `int`: `Integer(n)` is structurally the same value
as `n`. -/
theorem components_length_and_head {Ex Er : Type} (E : SymEngine Ex Er) (N n0 : Int)
    (f : Ex) (slv : Solver Ex) (a : Ex) (comps : List Ex)
    (hInt : E.integerC (InitArg.pyInt n0) = Except.ok (E.intC n0))
    (hInit : init E (PyNum.int N) f (InitArg.pyInt n0) = Except.ok slv)
    (hSolve : solve E slv = Except.ok (a, comps)) :
    (comps.length : Int) = N ∧ comps.head? = some (E.intC n0) := by
  simp only [init] at hInit
  by_cases hN : N ≤ 0
  · rw [if_pos hN] at hInit; cases hInit
  · rw [if_neg hN, hInt] at hInit
    cases hInit
    simp only [solve] at hSolve
    cases hl : solveLoop E E.u f (N - 1).toNat 0 [E.intC n0] with
    | error e => rw [hl] at hSolve; cases hSolve
    | ok us =>
      rw [hl] at hSolve
      cases hSolve
      have hlen := solveLoop_length E E.u f ((N - 1).toNat) 0 [E.intC n0] _ hl
      have hpre := solveLoop_prefix E E.u f ((N - 1).toNat) 0 [E.intC n0] _ hl
      simp only [List.length_singleton] at hlen
      refine ⟨by omega, ?_⟩
      obtain ⟨tail, rfl⟩ := hpre
      rfl

/-- C3 witness: `num_terms = 1`, `initial_condition = 1`, `f(u) = u` on the
model engine yields exactly `[1]` with head `Integer(1)`. -/
theorem components_length_and_head_witness :
    ((List.length [Expr.const (Frac.ofInt 1)] : Int) = 1) ∧
      [Expr.const (Frac.ofInt 1)].head? = some (modelEngine.intC 1) :=
  components_length_and_head modelEngine 1 1 (Expr.sym "u")
    { num_terms := 1, non_linear_func := Expr.sym "u",
      initial_condition := Expr.const (Frac.ofInt 1), u := Expr.sym "u", us := [] }
    (Expr.const (Frac.ofInt 1)) [Expr.const (Frac.ofInt 1)] rfl (by decide) (by decide)

/-- C4: truncation-consistency — for a fixed nonlinearity and initial
condition, a successful `num_terms = N + 1` run restricted to its first `N`
components is exactly a successful `num_terms = N` run, for every Symbolic
Engine (each Adomian polynomial `A_k` reads only the components of index
`≤ k` already in the list). -/
theorem truncation_consistency {Ex Er : Type} (E : SymEngine Ex Er) (f u0 : Ex) (N : Nat)
    (hN : 1 ≤ N) (a' : Ex) (us' : List Ex)
    (h : solve E { num_terms := (N : Int) + 1, non_linear_func := f, initial_condition := u0,
                   u := E.u, us := [] } = Except.ok (a', us')) :
    ∃ a us, solve E { num_terms := (N : Int), non_linear_func := f, initial_condition := u0,
                      u := E.u, us := [] } = Except.ok (a, us) ∧ us'.take N = us := by
  obtain ⟨M, rfl⟩ : ∃ M, N = M + 1 := ⟨N - 1, by omega⟩
  simp only [solve] at h ⊢
  have ht1 : (((M + 1 : Nat) : Int) + 1 - 1).toNat = M + 1 := by omega
  have ht2 : (((M + 1 : Nat) : Int) - 1).toNat = M := by omega
  rw [ht1] at h
  rw [ht2]
  rw [solveLoop_succ_right] at h
  cases hv : solveLoop E E.u f M 0 [u0] with
  | error e => rw [hv] at h; cases h
  | ok v =>
    rw [hv] at h
    simp only [Nat.zero_add] at h
    cases hinv : inverse_operator E (calculate_adomian_polynomial E E.u f v M) E.xi with
    | error e => rw [hinv] at h; cases h
    | ok inv =>
      rw [hinv] at h
      cases h
      refine ⟨List.foldl E.add (E.intC 0) v, v, rfl, ?_⟩
      have hlen := solveLoop_length E E.u f M 0 [u0] v hv
      simp only [List.length_singleton] at hlen
      have hM : M + 1 = v.length := by omega
      rw [hM]
      exact List.take_left v [E.simplify (E.neg inv)]

/-- C4 witness: with `f(u) = u`, `u₀ = 1`, the first `1` components of the
`num_terms = 2` run form the `num_terms = 1` run. -/
theorem truncation_consistency_witness :
    ∃ a us, solve modelEngine
        { num_terms := ((1 : Nat) : Int), non_linear_func := Expr.sym "u",
          initial_condition := Expr.const (Frac.ofInt 1), u := modelEngine.u, us := [] }
        = Except.ok (a, us) ∧
      ([Expr.const (Frac.ofInt 1),
        Expr.mul (Expr.const { num := -1, den := 6 })
          (Expr.pow (Expr.sym "xi") (Expr.const (Frac.ofInt 2)))].take 1 = us) :=
  truncation_consistency modelEngine (Expr.sym "u") (Expr.const (Frac.ofInt 1)) 1
    (by omega)
    (Expr.add (Expr.const (Frac.ofInt 1))
      (Expr.mul (Expr.const { num := -1, den := 6 })
        (Expr.pow (Expr.sym "xi") (Expr.const (Frac.ofInt 2)))))
    [Expr.const (Frac.ofInt 1),
      Expr.mul (Expr.const { num := -1, den := 6 })
        (Expr.pow (Expr.sym "xi") (Expr.const (Frac.ofInt 2)))]
    (by decide)

/-- C6: for `f(u) = (u² − C)^1.5`, `u₀ = 1`, `num_terms = 2` on the model
engine, `A₀ = (1 − C)^(3/2)` (a constant with respect to `ξ`),
`component[0] = 1` and `component[1] = ((-1/6)·(1−C)^(3/2))·ξ²`, the
simplified value of `−L⁻¹(A₀)`, i.e. `−(1−C)^1.5·ξ²/6`. -/
theorem concrete_scenario_closed_form :
    calculate_adomian_polynomial modelEngine modelEngine.u concreteNonLinearFunc
        [Expr.const (Frac.ofInt 1)] 0 = Expr.pow oneMinusC (Expr.const { num := 3, den := 2 }) ∧
      solve modelEngine
          { num_terms := 2, non_linear_func := concreteNonLinearFunc,
            initial_condition := Expr.const (Frac.ofInt 1), u := Expr.sym "u", us := [] }
        = Except.ok (Expr.add (Expr.const (Frac.ofInt 1)) componentOneC6,
            [Expr.const (Frac.ofInt 1), componentOneC6]) :=
  ⟨by decide, by decide⟩

/-- C7 counterexample: the internal symbols are not fresh.  The legal caller
nonlinearity `f(u) = lamda·u` contains the parametrization symbol `lamda`
(from `sympy.abc`), so the claimed distinctness fails; concretely the code's
`A₀` evaluates to `0` — the `lamda = 0` substitution silently captured the
caller's symbol — although for `k = 0` the Adomian polynomial must equal
`f(u₀) = lamda·1 = lamda`. -/
theorem symbol_capture_counterexample :
    occurs "lamda" captureNonLinearFunc = true ∧
      modelEngine.subs captureNonLinearFunc modelEngine.u (Expr.const (Frac.ofInt 1))
        = Expr.sym "lamda" ∧
      calculate_adomian_polynomial modelEngine modelEngine.u captureNonLinearFunc
          [Expr.const (Frac.ofInt 1)] 0 = Expr.const (Frac.ofInt 0) ∧
      Expr.const (Frac.ofInt 0) ≠ Expr.sym "lamda" :=
  ⟨by decide, by decide, by decide, by decide⟩

/-- C7 (amended): the parametrization symbol and the integration dummies are
the fixed global names `lamda`, `s`, `t` imported from `sympy.abc` — not
engine-generated fresh symbols — and are distinct from each other and from
the designated solution symbol `u` and independent variable `xi`, so no
capture arises from the solver's own designated symbols; distinctness from
arbitrary caller symbols is not guaranteed. -/
theorem internal_symbols_fixed_names :
    modelEngine.lamda = Expr.sym "lamda" ∧ modelEngine.s = Expr.sym "s" ∧
      modelEngine.t = Expr.sym "t" ∧ modelEngine.u = Expr.sym "u" ∧
      modelEngine.xi = Expr.sym "xi" ∧
      ["lamda", "s", "t", "u", "xi"].Pairwise (fun a b => a ≠ b) :=
  ⟨rfl, rfl, rfl, rfl, rfl, by decide⟩

/-- C10 counterexample: the driver's non-integer numeric initial condition
`1 + π/2` (a numeric sympy expression truncating toward zero to `2`,
`InitArg.number false 2`) does not make construction fail: sympy's `Integer`
discards the fractional part of a numeric argument, so the solver is built
with `u(0) = Integer(2)` instead of raising. -/
theorem integer_truncation_counterexample :
    init modelEngine (PyNum.int 2) (Expr.sym "u") (InitArg.number false 2)
      = Except.ok { num_terms := 2, non_linear_func := Expr.sym "u",
                    initial_condition := Expr.const (Frac.ofInt 2), u := Expr.sym "u",
                    us := [] } := by
  decide

/-- C10 (amended): the constructor coerces `initial_condition` through
`Integer(·)`: Python ints are embedded exactly, numeric non-integer
expressions are truncated toward zero and accepted, and only non-numeric
symbolic expressions fail — with sympy's `TypeError`, not a solver error —
and the stored `initial_condition` (hence `components[0]`) is the `Integer`
coercion of the argument. -/
theorem integer_coercion_behavior :
    (∀ n : Int, modelEngine.integerC (InitArg.pyInt n) = Except.ok (Expr.const (Frac.ofInt n))) ∧
      (∀ (b : Bool) (tr : Int), modelEngine.integerC (InitArg.number b tr)
        = Except.ok (Expr.const (Frac.ofInt tr))) ∧
      modelEngine.integerC InitArg.symbolic
        = Except.error "TypeError: Integer can only work with integer expressions" ∧
      (∀ f : Expr, init modelEngine (PyNum.int 2) f InitArg.symbolic
        = Except.error
            (SolverError.engine "TypeError: Integer can only work with integer expressions")) ∧
      (∀ (f : Expr) (n : Int), init modelEngine (PyNum.int 2) f (InitArg.pyInt n)
        = Except.ok { num_terms := 2, non_linear_func := f,
                      initial_condition := Expr.const (Frac.ofInt n), u := Expr.sym "u",
                      us := [] }) :=
  ⟨fun _ => rfl, fun _ _ => rfl, rfl, fun _ => rfl, fun _ _ => rfl⟩

/-- C9 witness: with `f(u) = u`, `u₀ = 1`, `num_terms = 2`, the returned sum
is the raw fold `0 + u₀ + u₁`. -/
theorem approx_solution_unsimplified_sum_witness :
    Expr.add (Expr.const (Frac.ofInt 1))
        (Expr.mul (Expr.const { num := -1, den := 6 }) (Expr.pow (Expr.sym "xi") (Expr.const (Frac.ofInt 2)))) =
      List.foldl modelEngine.add (modelEngine.intC 0)
        [Expr.const (Frac.ofInt 1),
          Expr.mul (Expr.const { num := -1, den := 6 }) (Expr.pow (Expr.sym "xi") (Expr.const (Frac.ofInt 2)))] :=
  approx_solution_unsimplified_sum modelEngine
    { num_terms := 2, non_linear_func := Expr.sym "u", initial_condition := Expr.const (Frac.ofInt 1),
      u := Expr.sym "u", us := [] }
    (Expr.add (Expr.const (Frac.ofInt 1))
      (Expr.mul (Expr.const { num := -1, den := 6 }) (Expr.pow (Expr.sym "xi") (Expr.const (Frac.ofInt 2)))))
    [Expr.const (Frac.ofInt 1), Expr.mul (Expr.const { num := -1, den := 6 }) (Expr.pow (Expr.sym "xi") (Expr.const (Frac.ofInt 2)))]
    (by decide)

end LaneEmden
